import Mathlib

/-!
Verification of the Blender MCP Server core (WebSocket command server).

This file is a shallow embedding, in Lean 4, of the parts of the Python
sources relevant to the behavioural claims about the server:

* `blender_mcp_server/utils/validation.py` — command-name validation;
* `blender_mcp_server/utils/error_handling.py` — error responses and the
  centralized error counter;
* `blender_mcp_server/server.py` — the message-processing pipeline
  (`process_message`), the execution bridge (`execute_blender_commands`
  drain loop and `execute_command` submission/waiter), the heartbeat
  monitor and client cleanup;
* `blender_mcp_server/command_router.py` — the registered handler set.

Conventions of the embedding:

* JSON values are modelled by the inductive `Json`; JSON numbers are
  modelled as `Int` (no claim under consideration involves non-integer
  numerics).
* Python dictionaries keyed by strings are modelled as association lists
  `List (String × α)`, with lookup returning the first binding; real
  dictionaries have unique keys, which the theorems assume where it
  matters (stated as `Nodup` hypotheses).
* Python exceptions raised by a collaborator are modelled by
  `Except String α`: `Except.error e` stands for an exception escaping
  with text `e`.
* Real time (`time.time()`) is modelled by `ℚ`.
* Order-of-operations claims (what happens before what inside one
  coroutine) are modelled by translating the body of the Python function
  into an explicit list of primitive steps, in source order, together
  with a fold giving the state semantics of those steps.
-/

set_option autoImplicit false

namespace BlenderMCP

/-! ## JSON values and Python-dictionary helpers -/

/-- A JSON value as produced by `json.loads`.  Numbers are modelled as
integers; objects keep their fields as an association list. -/
inductive Json where
  | null : Json
  | bool (b : Bool) : Json
  | num (n : Int) : Json
  | str (s : String) : Json
  | arr (elems : List Json) : Json
  | obj (fields : List (String × Json)) : Json

/-- Python truthiness of a JSON value: `None`, `False`, `0`, `""`, `[]`
and an empty object are falsy, everything else is truthy.  This mirrors
the `if not command:` test in `process_message`. -/
def Json.truthy : Json → Bool
  | .null => false
  | .bool b => b
  | .num n => n != 0
  | .str s => s != ""
  | .arr [] => false
  | .arr (_ :: _) => true
  | .obj [] => false
  | .obj (_ :: _) => true

/-- Lookup in an association list modelling a Python dict: first binding
for the key, mirroring `d[k]` / `d.get(k)`. -/
def dictGet? {α : Type} (d : List (String × α)) (k : String) : Option α :=
  match d with
  | [] => none
  | (k', v) :: rest => if k' = k then some v else dictGet? rest k

/-- Python `d.get(k, default)`. -/
def dictGetD {α : Type} (d : List (String × α)) (k : String) (default : α) : α :=
  (dictGet? d k).getD default

/-- Python `d[k] = v`: overwrite the binding if the key is present,
otherwise append a new binding. -/
def dictSet {α : Type} (d : List (String × α)) (k : String) (v : α) : List (String × α) :=
  match d with
  | [] => [(k, v)]
  | (k', v') :: rest => if k' = k then (k, v) :: rest else (k', v') :: dictSet rest k v

/-- Python `d.pop(k, None)`: remove the binding for the key, if any. -/
def dictPop {α : Type} (d : List (String × α)) (k : String) : List (String × α) :=
  match d with
  | [] => []
  | (k', v') :: rest => if k' = k then rest else (k', v') :: dictPop rest k

/-- Python `s.startswith(p)`, on the character lists of the strings. -/
def startswithChars : List Char → List Char → Bool
  | _, [] => true
  | [], _ :: _ => false
  | b :: bs, a :: as => a = b && startswithChars bs as

/-- Python `s.startswith(p)` for strings. -/
def pyStartswith (s p : String) : Bool :=
  startswithChars s.data p.data

/-! ## Data models (`data_models.py`) -/

/-- Mirror of the `ResponseMessage` dataclass. -/
structure ResponseMessage where
  success : Bool
  data : Option Json := none
  message : Option String := none
  error : Option String := none

/-- Mirror of the `BlenderCommand` dataclass (a command queued for
main-thread execution). -/
structure BlenderCommand where
  command_id : String
  command : String
  params : List (String × Json)
  client_id : Option String

/-! ## Error handling (`utils/error_handling.py`) -/

/-- Mirror of the `ErrorCategory` enum. -/
inductive ErrorCategory where
  | CONNECTION
  | VALIDATION
  | BLENDER_API
  | COMMAND
  | SYSTEM
  | TIMEOUT
  | SECURITY
deriving DecidableEq, Repr

/-- The `value` of each `ErrorCategory` enum member. -/
def ErrorCategory.value : ErrorCategory → String
  | .CONNECTION => "CONNECTION"
  | .VALIDATION => "VALIDATION"
  | .BLENDER_API => "BLENDER_API"
  | .COMMAND => "COMMAND"
  | .SYSTEM => "SYSTEM"
  | .TIMEOUT => "TIMEOUT"
  | .SECURITY => "SECURITY"

/-- The list of all seven error categories, in enum order. -/
def ErrorCategory.all : List ErrorCategory :=
  [.CONNECTION, .VALIDATION, .BLENDER_API, .COMMAND, .SYSTEM, .TIMEOUT, .SECURITY]

/-- Mirror of `create_error_response` (error_handling.py:169-180): a
failure response whose `error` is `"CODE: message"` and whose `data`
carries the code, the category value and the optional details. -/
def create_error_response (code message : String) (details : Option String)
    (category : ErrorCategory) : ResponseMessage :=
  { success := false
    error := some (code ++ ": " ++ message)
    data := some (Json.obj
      [("error_code", Json.str code),
       ("category", Json.str category.value),
       ("details", match details with | some d => Json.str d | none => Json.null)]) }

/-- The error-counter table of `ErrorHandler`: `error_counts`, a dict
from key strings to counts. -/
abbrev ErrorCounts : Type := List (String × Nat)

/-- Mirror of the counter update in `ErrorHandler.handle_error`
(error_handling.py:48-50): the key is `f"{category.value}_{operation}"`
and its count is incremented by one (`get(key, 0) + 1`). -/
def handle_error (counts : ErrorCounts) (category : ErrorCategory)
    (operation : String) : ErrorCounts :=
  let error_key := category.value ++ "_" ++ operation
  dictSet counts error_key (dictGetD counts error_key 0 + 1)

/-- The counter key built by `handle_error` (error_handling.py:49). -/
def errorKey (category : ErrorCategory) (operation : String) : String :=
  category.value ++ "_" ++ operation

/-- Counter tables whose keys all come from `handle_error`. -/
def KeysWF (counts : ErrorCounts) : Prop :=
  ∀ kv ∈ counts, ∃ c op, kv.1 = errorKey c op

/-- The counter table after a sequence of `handle_error` calls, started
from the fresh handler's empty table (error_handling.py:41). -/
def error_counts_of_calls (calls : List (ErrorCategory × String)) : ErrorCounts :=
  calls.foldl (fun counts p => handle_error counts p.1 p.2) []

/-- Mirror of `ErrorHandler.get_error_stats` (error_handling.py:124-133):
the aggregate `total_errors` is the sum of all counter values. -/
def get_error_stats_total (counts : ErrorCounts) : Nat :=
  (counts.map (fun kv => kv.2)).sum

/-- Mirror of the per-category totals of `ErrorHandler.get_error_stats`:
for a category, the sum of the counts of the keys that start with the
category's value. -/
def get_error_stats_category (counts : ErrorCounts) (category : ErrorCategory) : Nat :=
  (counts.map (fun kv => if pyStartswith kv.1 category.value then kv.2 else 0)).sum

/-! ## Command-name validation (`utils/validation.py`) -/

/-- Mirror of the `valid_commands` set literal in `validate_command`
(validation.py:11-15). -/
def valid_commands : List String :=
  ["ping", "get_scene_info", "get_server_status", "clear_scene", "render_scene",
   "set_render_settings", "get_render_settings",
   "create_object", "move_object", "rotate_object", "scale_object", "set_material"]

/-- Mirror of `validate_command` (validation.py:9-16): membership in the
registered command set. -/
def validate_command (command : String) : Bool :=
  valid_commands.contains command

/-- Characters accepted by the object-name pattern of
`validate_object_name` (validation.py:24), the character class
`[a-zA-Z0-9_\-\.\s]`; whitespace is modelled by `Char.isWhitespace`. -/
def is_object_name_char (c : Char) : Bool :=
  (('a' ≤ c && c ≤ 'z') || ('A' ≤ c && c ≤ 'Z') || ('0' ≤ c && c ≤ '9')
    || c = '_' || c = '-' || c = '.' || c.isWhitespace)

/-- Mirror of `validate_object_name` (validation.py:19-24): the value
must be a non-empty string whose characters all match the class. -/
def validate_object_name (name : Json) : Bool :=
  match name with
  | Json.str s => s != "" && s.data.all is_object_name_char
  | _ => false

/-- Element loop of `validate_coordinates` (validation.py:33-37): each
element must be a number with absolute value at most 1,000,000. -/
def coordsElemCheck (name : String) : Nat → List Json → Option String
  | _, [] => none
  | i, Json.num n :: rest =>
    if n.natAbs > 1000000 then
      some (name ++ "[" ++ toString i ++ "] value too large (max ±1,000,000)")
    else coordsElemCheck name (i + 1) rest
  | i, _ :: _ => some (name ++ "[" ++ toString i ++ "] must be a number")

/-- Mirror of `validate_coordinates` (validation.py:27-38). -/
def validate_coordinates (coords : Json) (name : String) : Option String :=
  match coords with
  | Json.arr elems =>
    if elems.length ≠ 3 then some (name ++ " must have exactly 3 elements")
    else coordsElemCheck name 0 elems
  | _ => some (name ++ " must be a list")

/-- Hexadecimal digit, as matched by the class `[0-9a-fA-F]`. -/
def is_hex_char (c : Char) : Bool :=
  (('0' ≤ c && c ≤ '9') || ('a' ≤ c && c ≤ 'f') || ('A' ≤ c && c ≤ 'F'))

/-- Element loop of the list case of `validate_color`
(validation.py:52-56): each element a number between 0 and 1. -/
def colorElemCheck : Nat → List Json → Option String
  | _, [] => none
  | i, Json.num n :: rest =>
    if ¬(0 ≤ n ∧ n ≤ 1) then some ("Color[" ++ toString i ++ "] must be between 0 and 1")
    else colorElemCheck (i + 1) rest
  | i, _ :: _ => some ("Color[" ++ toString i ++ "] must be a number")

/-- Mirror of `validate_color` (validation.py:41-59).  The hex pattern
`^#[0-9a-fA-F]{6}$` is modelled as: a hash sign followed by exactly six
hex digits. -/
def validate_color (color : Json) : Option String :=
  match color with
  | Json.str s =>
    (match s.data with
     | '#' :: rest =>
       if rest.length = 6 && rest.all is_hex_char then none
       else some "Color string must be hex format (#RRGGBB)"
     | _ => some "Color string must be hex format (#RRGGBB)")
  | Json.arr elems =>
    if elems.length ≠ 3 ∧ elems.length ≠ 4 then
      some "Color list must have 3 (RGB) or 4 (RGBA) elements"
    else colorElemCheck 0 elems
  | _ => some "Color must be hex string (#RRGGBB) or RGB/RGBA list"

/-- Display of a JSON value interpolated into an f-string error message
(Python `str`).  Exact for strings and integers, which are the only
cases any statement below exercises; containers are approximated. -/
def jsonToDisplay : Json → String
  | .str s => s
  | .num n => toString n
  | .bool true => "True"
  | .bool false => "False"
  | .null => "None"
  | .arr _ => "[...]"
  | .obj _ => "\x7b...\x7d"

/-- The set literal of valid object types in the `create_object` branch
of `validate_params` (validation.py:73), in source order.  Python
iterates a `set` in unspecified order when joining the error text; the
source order is used here. -/
def valid_object_types : List String :=
  ["cube", "sphere", "cylinder", "plane", "cone", "torus"]

/-- Positivity loop of the `scale_object` branch (validation.py:128-130).
The non-number case cannot occur: the loop runs only after
`validate_coordinates` accepted the list. -/
def scalePositiveCheck : Nat → List Json → Option String
  | _, [] => none
  | i, Json.num n :: rest =>
    if n ≤ 0 then
      some ("scale[" ++ toString i ++ "] must be positive (got " ++ toString n ++ ")")
    else scalePositiveCheck (i + 1) rest
  | i, _ :: rest => scalePositiveCheck (i + 1) rest

/-- Resolution check shared by the `render_scene` and
`set_render_settings` branches (validation.py:168-176 and 179-187): a
2-element list of positive integers, each at most 8192. -/
def resolutionElemCheck : Nat → List Json → Option String
  | _, [] => none
  | i, Json.num n :: rest =>
    if n ≤ 0 then some ("resolution[" ++ toString i ++ "] must be a positive integer")
    else if n > 8192 then some ("resolution[" ++ toString i ++ "] too large (max 8192)")
    else resolutionElemCheck (i + 1) rest
  | i, _ :: _ => some ("resolution[" ++ toString i ++ "] must be a positive integer")

/-- Resolution parameter check: list shape then element loop. -/
def resolutionCheck (resolution : Json) : Option String :=
  match resolution with
  | Json.arr elems =>
    if elems.length ≠ 2 then
      some "Parameter 'resolution' must be a list with 2 elements [width, height]"
    else resolutionElemCheck 0 elems
  | _ => some "Parameter 'resolution' must be a list with 2 elements [width, height]"

/-- Mirror of `validate_params` (validation.py:62-213).  The result is
`Except.error e` when the Python code would raise an uncaught exception
(the `engine` and `format` branches call `.upper()` on the raw value,
which raises `AttributeError` on a non-string); otherwise `Except.ok
(some msg)` is a validation failure and `Except.ok none` acceptance. -/
def validate_params (command : String) (params : List (String × Json)) :
    Except String (Option String) :=
  if command = "create_object" then
    match dictGet? params "type" with
    | none => .ok (some "Missing required parameter: type")
    | some ptype =>
      match dictGet? params "name" with
      | none => .ok (some "Missing required parameter: name")
      | some pname =>
        let obj_type := match ptype with | Json.str s => s.toLower | _ => ""
        if ¬valid_object_types.contains obj_type then
          .ok (some ("Invalid object type '" ++ jsonToDisplay ptype ++ "'. Valid types: "
            ++ String.intercalate ", " valid_object_types))
        else if ¬validate_object_name pname then
          .ok (some "Invalid object name. Use alphanumeric characters, underscore, dash, dot, or space")
        else
          match dictGet? params "location" with
          | none => .ok none
          | some loc => .ok (validate_coordinates loc "location")
  else if command = "move_object" then
    match dictGet? params "name" with
    | none => .ok (some "Missing required parameter: name")
    | some pname =>
      match dictGet? params "location" with
      | none => .ok (some "Missing required parameter: location")
      | some loc =>
        if ¬validate_object_name pname then .ok (some "Invalid object name")
        else .ok (validate_coordinates loc "location")
  else if command = "rotate_object" then
    match dictGet? params "name" with
    | none => .ok (some "Missing required parameter: name")
    | some pname =>
      match dictGet? params "rotation" with
      | none => .ok (some "Missing required parameter: rotation")
      | some rot =>
        if ¬validate_object_name pname then .ok (some "Invalid object name")
        else .ok (validate_coordinates rot "rotation")
  else if command = "scale_object" then
    match dictGet? params "name" with
    | none => .ok (some "Missing required parameter: name")
    | some pname =>
      match dictGet? params "scale" with
      | none => .ok (some "Missing required parameter: scale")
      | some scale =>
        if ¬validate_object_name pname then .ok (some "Invalid object name")
        else
          match validate_coordinates scale "scale" with
          | some e => .ok (some e)
          | none =>
            match scale with
            | Json.arr elems => .ok (scalePositiveCheck 0 elems)
            | _ => .ok none
  else if command = "set_material" then
    match dictGet? params "name" with
    | none => .ok (some "Missing required parameter: name")
    | some pname =>
      match dictGet? params "material" with
      | none => .ok (some "Missing required parameter: material")
      | some material =>
        if ¬validate_object_name pname then .ok (some "Invalid object name")
        else
          match material with
          | Json.obj mfields =>
            let colorRes : Option String :=
              match dictGet? mfields "color" with
              | none => none
              | some color =>
                match validate_color color with
                | some e => some ("Invalid material color: " ++ e)
                | none => none
            (match colorRes with
             | some e => .ok (some e)
             | none =>
               let metallicRes : Option String :=
                 match dictGet? mfields "metallic" with
                 | none => none
                 | some (Json.num m) =>
                   if ¬(0 ≤ m ∧ m ≤ 1) then
                     some "Material 'metallic' must be a number between 0 and 1"
                   else none
                 | some _ => some "Material 'metallic' must be a number between 0 and 1"
               match metallicRes with
               | some e => .ok (some e)
               | none =>
                 match dictGet? mfields "roughness" with
                 | none => .ok none
                 | some (Json.num r) =>
                   if ¬(0 ≤ r ∧ r ≤ 1) then
                     .ok (some "Material 'roughness' must be a number between 0 and 1")
                   else .ok none
                 | some _ => .ok (some "Material 'roughness' must be a number between 0 and 1"))
          | _ => .ok (some "Parameter 'material' must be an object")
  else if command = "render_scene" then
    let outputRes : Option String :=
      match dictGet? params "output_path" with
      | none => none
      | some (Json.str s) =>
        if s.trim = "" then some "Parameter 'output_path' cannot be empty" else none
      | some _ => some "Parameter 'output_path' must be a string"
    match outputRes with
    | some e => .ok (some e)
    | none =>
      match dictGet? params "resolution" with
      | none => .ok none
      | some resolution => .ok (resolutionCheck resolution)
  else if command = "set_render_settings" then
    let resolutionRes : Option String :=
      match dictGet? params "resolution" with
      | none => none
      | some resolution => resolutionCheck resolution
    match resolutionRes with
    | some e => .ok (some e)
    | none =>
      match dictGet? params "engine" with
      | some engine =>
        (match engine with
         | Json.str s =>
           if ¬(["CYCLES", "BLENDER_EEVEE", "BLENDER_WORKBENCH"].contains s.toUpper) then
             .ok (some "Invalid render engine. Valid engines: CYCLES, BLENDER_EEVEE, BLENDER_WORKBENCH")
           else validateRenderSamples params
         | _ => .error "AttributeError: object has no attribute upper")
      | none => validateRenderSamples params
  else .ok none
where
  /-- The `samples`, `format` and `quality` checks of the
  `set_render_settings` branch (validation.py:195-211). -/
  validateRenderSamples (params : List (String × Json)) : Except String (Option String) :=
    let samplesRes : Option String :=
      match dictGet? params "samples" with
      | none => none
      | some (Json.num s) =>
        if s ≤ 0 then some "Parameter 'samples' must be a positive integer"
        else if s > 10000 then some "Parameter 'samples' too large (max 10000)"
        else none
      | some _ => some "Parameter 'samples' must be a positive integer"
    match samplesRes with
    | some e => .ok (some e)
    | none =>
      match dictGet? params "format" with
      | some (Json.str f) =>
        if ¬(["PNG", "JPEG", "TIFF", "OPEN_EXR", "HDR"].contains f.toUpper) then
          .ok (some "Invalid format. Valid formats: PNG, JPEG, TIFF, OPEN_EXR, HDR")
        else validateRenderQuality params
      | some _ => .error "AttributeError: object has no attribute upper"
      | none => validateRenderQuality params
  /-- The `quality` check (validation.py:208-211). -/
  validateRenderQuality (params : List (String × Json)) : Except String (Option String) :=
    match dictGet? params "quality" with
    | none => .ok none
    | some (Json.num q) =>
      if ¬(0 ≤ q ∧ q ≤ 100) then
        .ok (some "Parameter 'quality' must be an integer between 0 and 100")
      else .ok none
    | some _ => .ok (some "Parameter 'quality' must be an integer between 0 and 100")

/-! ## Registered handlers (`command_router.py`) -/

/-- The command names registered by
`CommandRouter._register_default_handlers` (command_router.py:24-48), in
registration order. -/
def default_handler_commands : List String :=
  ["create_object", "move_object", "rotate_object", "scale_object", "set_material",
   "get_scene_info", "clear_scene",
   "render_scene", "set_render_settings", "get_render_settings",
   "ping", "get_server_status", "get_error_stats", "disconnect_client"]

/-! ## Message processing (`server.py`, `MCPServer.process_message`) -/

/-- The command names interpolated into the `UNKNOWN_COMMAND` detail
text at server.py:315, in source order. -/
def unknown_command_detail_commands : List String :=
  ["ping", "get_scene_info", "get_server_status", "clear_scene", "render_scene",
   "create_object", "move_object", "rotate_object", "scale_object", "set_material"]

/-- The detail string of the `UNKNOWN_COMMAND` error response
(server.py:315). -/
def unknown_command_detail : String :=
  "Available commands: " ++ String.intercalate ", " unknown_command_detail_commands

/-- Outcome of `process_message` on one parsed inbound message: either
an error reply is sent back, or the validated command is passed on to
`execute_command`. -/
inductive ProcessResult where
  | reply (response : ResponseMessage)
  | execute (command : String) (params : List (String × Json))

/-- Mirror of `MCPServer.process_message` (server.py:281-352) from the
point where the inbound text has been parsed into a JSON value `data`
(the upstream size guard and `INVALID_JSON` guard concern the raw text,
which no claim under consideration involves).  Checks run in source
order: object shape, command truthiness, command type, command
registration, params type, command-specific params.  An exception
raised by `validate_params` is caught by the outer handler at
server.py:354-359 and turned into a `PROCESSING_ERROR` reply. -/
def process_message (data : Json) : ProcessResult :=
  match data with
  | Json.obj fields =>
    let command := dictGetD fields "command" (Json.str "")
    let params := dictGetD fields "params" (Json.obj [])
    if ¬command.truthy then
      .reply (create_error_response "MISSING_COMMAND" "Command field is required" none .SYSTEM)
    else
      match command with
      | Json.str c =>
        if ¬validate_command c then
          .reply (create_error_response "UNKNOWN_COMMAND"
            ("Command '" ++ c ++ "' is not recognized") (some unknown_command_detail) .SYSTEM)
        else
          (match params with
           | Json.obj pfields =>
             (match validate_params c pfields with
              | .error e =>
                .reply (create_error_response "PROCESSING_ERROR"
                  ("Internal server error: " ++ e) none .SYSTEM)
              | .ok (some param_error) =>
                .reply (create_error_response "INVALID_PARAMS" param_error none .SYSTEM)
              | .ok none => .execute c pfields)
           | _ =>
             .reply (create_error_response "INVALID_PARAMS_TYPE"
               "Params must be a JSON object" none .SYSTEM))
      | _ =>
        .reply (create_error_response "INVALID_COMMAND_TYPE"
          "Command must be a string" none .SYSTEM)
  | _ =>
    .reply (create_error_response "INVALID_MESSAGE_FORMAT"
      "Message must be a JSON object" none .SYSTEM)

/-! ## The execution bridge

State shared between the network thread and the Blender main thread
(server.py:36-37): the FIFO `_command_queue` of `BlenderCommand`s and
the `_response_futures` table from command id to pending future.  The
asyncio future objects themselves are modelled by a store from command
id to `FutureState` (command ids are fresh `uuid4` values, so the id
identifies the future object); `_response_futures` holding a reference
to the future for id `k` is modelled by `k` being a key of `table`. -/

/-- State of one asyncio future: pending, resolved with a response
(`set_result`), or cancelled.  `done()` is true in the last two. -/
inductive FutureState where
  | pending
  | resolved (response : ResponseMessage)
  | cancelled

/-- Python `future.done()`. -/
def FutureState.done : FutureState → Bool
  | .pending => false
  | .resolved _ => true
  | .cancelled => true

/-- The bridge state: the FIFO command queue, the
`_response_futures` table (the set of registered ids, as an association
list to `Unit`), and the store of future objects by command id. -/
structure BridgeState where
  queue : List BlenderCommand
  futures : List (String × Unit)
  store : String → FutureState

/-- Update of the future store at one id. -/
def setStore (store : String → FutureState) (k : String) (v : FutureState) :
    String → FutureState :=
  fun k' => if k' = k then v else store k'

/-! ### The drain loop (`execute_blender_commands`, server.py:41-76) -/

/-- Result of one attempt to execute a command on the main thread
(`execute_blender_command_sync`); `Except.error e` models an exception
escaping it, which the drain loop catches at server.py:54-58. -/
abbrev ExecFn := BlenderCommand → Except String ResponseMessage

/-- The response the drain loop resolves the future with: the handler
result, or the `EXECUTION_ERROR` failure built from a caught
exception (server.py:52-58). -/
def drainResponse (execFn : ExecFn) (cmd : BlenderCommand) : ResponseMessage :=
  match execFn cmd with
  | .ok r => r
  | .error e => { success := false, error := some ("EXECUTION_ERROR: " ++ e) }

/-- Processing of one popped command by the drain loop
(server.py:49-67): compute the response (catching handler exceptions),
resolve the future if it is registered and not yet done, then pop its
table entry. -/
def drainOne (execFn : ExecFn) (cmd : BlenderCommand) (st : BridgeState) : BridgeState :=
  let response := drainResponse execFn cmd
  let store' :=
    match dictGet? st.futures cmd.command_id with
    | some _ =>
      if (st.store cmd.command_id).done then st.store
      else setStore st.store cmd.command_id (.resolved response)
    | none => st.store
  { queue := st.queue
    futures := dictPop st.futures cmd.command_id
    store := store' }

/-- The bounded drain loop body (server.py:47-70): `fuel` iterations
(10 in the source), popping one command per iteration and breaking when
the queue is empty. -/
def drainLoop (execFn : ExecFn) : Nat → BridgeState → BridgeState
  | 0, st => st
  | fuel + 1, st =>
    match st.queue with
    | [] => st
    | cmd :: rest =>
      drainLoop execFn fuel (drainOne execFn cmd { st with queue := rest })

/-- Mirror of one timer tick of `execute_blender_commands`
(server.py:41-76): process up to 10 queued commands. -/
def execute_blender_commands (execFn : ExecFn) (st : BridgeState) : BridgeState :=
  drainLoop execFn 10 st

/-! ### Command submission (`MCPServer.execute_command`, server.py:461-515) -/

/-- Mirror of the `CommandMessage` dataclass. -/
structure CommandMessage where
  command : String
  params : List (String × Json)
  client_id : Option String

/-- Where `execute_command` runs a command: directly on the network
thread, or via the main-thread queue.  Mirrors the branch at
server.py:466: only `get_server_status` is answered directly; every
other command falls through to the queueing path at server.py:481-496. -/
inductive ExecRoute where
  | local_direct
  | host_queued
deriving DecidableEq, Repr

/-- The routing decision of `execute_command` (server.py:466-482). -/
def execute_command_route (command : String) : ExecRoute :=
  if command = "get_server_status" then .local_direct else .host_queued

/-- A primitive effect of `execute_command` on the shared bridge state. -/
inductive BridgeAction where
  | register_future (command_id : String)
  | queue_put (cmd : BlenderCommand)

/-- State semantics of one bridge action: registration adds the id to
`_response_futures` (server.py:493); `queue_put` appends to the FIFO
queue (server.py:496). -/
def applyBridgeAction (st : BridgeState) : BridgeAction → BridgeState
  | .register_future k => { st with futures := dictSet st.futures k () }
  | .queue_put cmd => { st with queue := st.queue ++ [cmd] }

/-- Fold of a list of bridge actions over the state. -/
def runBridgeActions (st : BridgeState) (acts : List BridgeAction) : BridgeState :=
  acts.foldl applyBridgeAction st

/-- The `BlenderCommand` built at server.py:483-488. -/
def mkBlenderCommand (msg : CommandMessage) (command_id : String) : BlenderCommand :=
  { command_id := command_id
    command := msg.command
    params := msg.params
    client_id := msg.client_id }

/-- The bridge effects of `execute_command` for one submission, in
source order (server.py:490-496): create and register the future for
the fresh `command_id`, then put the command on the queue.  The
`get_server_status` branch returns before reaching this code and so
performs no bridge action. -/
def execute_command_bridge_actions (msg : CommandMessage) (command_id : String) :
    List BridgeAction :=
  match execute_command_route msg.command with
  | .local_direct => []
  | .host_queued =>
    [.register_future command_id, .queue_put (mkBlenderCommand msg command_id)]

/-- Outcome of `asyncio.wait_for(future, timeout=30.0)` at
server.py:500: the future resolved in time, the deadline passed
(`asyncio.TimeoutError`), or some other exception. -/
inductive AwaitOutcome where
  | result (response : ResponseMessage)
  | timeout
  | failure (e : String)

/-- Mirror of the waiter tail of `execute_command` (server.py:498-515):
the returned response and the `_response_futures` table afterwards.  On
timeout the waiter pops the entry itself and returns the `TIMEOUT`
failure; on any other exception it pops the entry and returns an
`EXECUTION_ERROR` failure. -/
def execute_command_await (outcome : AwaitOutcome)
    (futures : List (String × Unit)) (command_id : String) :
    ResponseMessage × List (String × Unit) :=
  match outcome with
  | .result response => (response, futures)
  | .timeout =>
    ({ success := false, error := some "TIMEOUT: Command execution timed out" },
     dictPop futures command_id)
  | .failure e =>
    ({ success := false, error := some ("EXECUTION_ERROR: " ++ e) },
     dictPop futures command_id)

/-! ## Client tracking, cleanup and the heartbeat monitor (`server.py`) -/

/-- Mirror of the per-client entry of `client_info`
(server.py:227-233). -/
structure ClientInfo where
  ip : String
  port : Nat
  connected_at : ℚ
  last_seen : ℚ
  message_count : Nat

/-- The client-tracking state of `MCPServer`: the `clients` map (the
websocket objects are identified by the client id, so the map is
modelled as the set of tracked ids) and the `client_info` map. -/
structure ServerClients where
  clients : List (String × Unit)
  client_info : List (String × ClientInfo)

/-- A primitive step of `MCPServer._cleanup_client`
(server.py:404-419). -/
inductive CleanupStep where
  | close_websocket (client_id : String) (code : Nat) (reason : String)
  | pop_clients (client_id : String)
  | pop_client_info (client_id : String)
deriving DecidableEq, Repr

/-- The steps of `_cleanup_client` for one client, in source order
(server.py:406-415): the close handshake is awaited first — only when
the client is present in `clients` — and the two tracking tables are
popped afterwards. -/
def cleanup_client_steps (client_id : String) (reason : String) (has_socket : Bool) :
    List CleanupStep :=
  (if has_socket then [CleanupStep.close_websocket client_id 1001 reason] else [])
    ++ [CleanupStep.pop_clients client_id, CleanupStep.pop_client_info client_id]

/-- State semantics of one cleanup step.  The close handshake is a
network effect with no action on the tracking state; its failure is
caught and logged at server.py:410-411. -/
def applyCleanupStep (st : ServerClients) : CleanupStep → ServerClients
  | .close_websocket _ _ _ => st
  | .pop_clients client_id => { st with clients := dictPop st.clients client_id }
  | .pop_client_info client_id => { st with client_info := dictPop st.client_info client_id }

/-- Mirror of `_cleanup_client` (server.py:404-419) as a state
transformer on the tracking tables. -/
def cleanup_client (st : ServerClients) (client_id reason : String) : ServerClients :=
  (cleanup_client_steps client_id reason (dictGet? st.clients client_id).isSome).foldl
    applyCleanupStep st

/-- Mirror of `_cleanup_client` including the outcome of the
best-effort close attempt: `closeRes` is what `websocket.close(...)`
did (`Except.error e` a raised exception).  The surrounding
`try/except` at server.py:408-411 swallows the failure, so the call
always returns normally with the tracking tables cleaned. -/
def cleanup_client_run (closeRes : Except String Unit) (st : ServerClients)
    (client_id reason : String) : Except String ServerClients :=
  match closeRes with
  | .ok _ => .ok (cleanup_client st client_id reason)
  | .error _ => .ok (cleanup_client st client_id reason)

/-- Classification of one tracked client by a heartbeat sweep pass
(server.py:373-381): stale when inactive for more than 300 seconds,
warned when inactive for more than 180 (but at most 300), active
otherwise. -/
inductive HeartbeatClass where
  | stale
  | warned
  | active
deriving DecidableEq, Repr

/-- The classification test of the sweep, in source order: the 300s
test first, the 180s test only as the `elif`. -/
def heartbeat_classify (current_time : ℚ) (info : ClientInfo) : HeartbeatClass :=
  if current_time - info.last_seen > 300 then .stale
  else if current_time - info.last_seen > 180 then .warned
  else .active

/-- The `stale_clients` list collected by one sweep pass
(server.py:370-378). -/
def heartbeat_stale_clients (current_time : ℚ) (st : ServerClients) : List String :=
  (st.client_info.filter (fun kv => heartbeat_classify current_time kv.2 = .stale)).map
    (fun kv => kv.1)

/-- The `warning_clients` list collected by one sweep pass
(server.py:371-381); these are only logged, never closed. -/
def heartbeat_warning_clients (current_time : ℚ) (st : ServerClients) : List String :=
  (st.client_info.filter (fun kv => heartbeat_classify current_time kv.2 = .warned)).map
    (fun kv => kv.1)

/-- The cleanup fold of one sweep pass (server.py:387-389), over the
collected stale ids in order. -/
def sweepCleanupGo : List String → ServerClients → ServerClients
  | [], st => st
  | client_id :: rest, st =>
    sweepCleanupGo rest (cleanup_client st client_id "Connection timeout")

/-- The tracking state after one sweep pass (server.py:387-389): each
stale client is cleaned up with reason `"Connection timeout"`; warned
clients are untouched. -/
def heartbeat_sweep (current_time : ℚ) (st : ServerClients) : ServerClients :=
  sweepCleanupGo (heartbeat_stale_clients current_time st) st

/-- The cleanup steps emitted while cleaning the stale ids in order. -/
def sweepEventsGo : List String → ServerClients → List CleanupStep
  | [], _ => []
  | client_id :: rest, st =>
    cleanup_client_steps client_id "Connection timeout"
        (dictGet? st.clients client_id).isSome
      ++ sweepEventsGo rest (cleanup_client st client_id "Connection timeout")

/-- The cleanup steps emitted by one sweep pass, in order: the steps of
`_cleanup_client(client_id, "Connection timeout")` for each stale
client. -/
def heartbeat_sweep_events (current_time : ℚ) (st : ServerClients) : List CleanupStep :=
  sweepEventsGo (heartbeat_stale_clients current_time st) st

/-- Selector for close steps. -/
def stepIsClose : CleanupStep → Bool
  | .close_websocket _ _ _ => true
  | _ => false

/-- Selector for tracking-table removal steps. -/
def stepIsPop : CleanupStep → Bool
  | .pop_clients _ => true
  | .pop_client_info _ => true
  | _ => false

/-- The ordering property asserted by the spec for teardown: every
tracking-table removal happens strictly before the close handshake is
awaited. -/
def removal_precedes_close (steps : List CleanupStep) : Prop :=
  ∀ i j : Nat, ∀ s t : CleanupStep,
    steps.get? i = some s → stepIsClose s = true →
    steps.get? j = some t → stepIsPop t = true → j < i

/-- The ordering the code actually implements: the close handshake is
awaited strictly before each tracking-table removal. -/
def close_precedes_removal (steps : List CleanupStep) : Prop :=
  ∀ i j : Nat, ∀ s t : CleanupStep,
    steps.get? i = some s → stepIsClose s = true →
    steps.get? j = some t → stepIsPop t = true → i < j

/-! ## Concrete fixtures used by the witness statements -/

/-- A queued command whose handler will fail. -/
def wCmdA : BlenderCommand :=
  { command_id := "a", command := "clear_scene", params := [], client_id := none }

/-- A queued command whose handler succeeds. -/
def wCmdB : BlenderCommand :=
  { command_id := "b", command := "ping", params := [], client_id := none }

/-- An execution function that raises on `wCmdA` and succeeds on
everything else. -/
def wExecFn : ExecFn :=
  fun c => if c.command_id = "a" then .error "boom" else .ok { success := true }

/-- A bridge state holding the two fixture commands with registered
pending futures. -/
def wBridgeSt : BridgeState :=
  { queue := [wCmdA, wCmdB]
    futures := [("a", ()), ("b", ())]
    store := fun _ => .pending }

/-- A tracked client last seen at time 0. -/
def wInfo : ClientInfo :=
  { ip := "127.0.0.1", port := 5000, connected_at := 0, last_seen := 0, message_count := 3 }

/-- A server tracking exactly the fixture client. -/
def wServerSt : ServerClients :=
  { clients := [("c", ())], client_info := [("c", wInfo)] }

/-! ## Library lemmas about the dictionary model -/

theorem dictGet?_dictSet_self {α : Type} (d : List (String × α)) (k : String) (v : α) :
    dictGet? (dictSet d k v) k = some v := by
  induction d with
  | nil => simp [dictSet, dictGet?]
  | cons kv rest ih =>
    obtain ⟨k', v'⟩ := kv
    by_cases h : k' = k <;> simp [dictSet, dictGet?, h, ih]

theorem dictGet?_dictSet_ne {α : Type} (d : List (String × α)) (k k' : String) (v : α)
    (h : k' ≠ k) : dictGet? (dictSet d k v) k' = dictGet? d k' := by
  induction d with
  | nil => simp [dictSet, dictGet?, Ne.symm h]
  | cons kv rest ih =>
    obtain ⟨k₀, v₀⟩ := kv
    by_cases h₀ : k₀ = k
    · subst h₀
      simp [dictSet, dictGet?, Ne.symm h]
    · simp [dictSet, dictGet?, h₀, ih]

theorem dictGet?_dictPop_self {α : Type} (d : List (String × α)) (k : String)
    (hnodup : (d.map Prod.fst).Nodup) : dictGet? (dictPop d k) k = none := by
  induction d with
  | nil => simp [dictPop, dictGet?]
  | cons kv rest ih =>
    obtain ⟨k₀, v₀⟩ := kv
    simp only [List.map_cons, List.nodup_cons] at hnodup
    by_cases h₀ : k₀ = k
    · subst h₀
      simp only [dictPop, if_pos rfl]
      -- the key does not occur in the tail, so lookup there fails
      clear ih
      induction rest with
      | nil => simp [dictGet?]
      | cons kv' rest' ih' =>
        obtain ⟨k₁, v₁⟩ := kv'
        simp only [List.map_cons, List.mem_cons, List.nodup_cons] at hnodup
        have hk₁ : k₁ ≠ k₀ := fun h => hnodup.1 (Or.inl h.symm)
        simp only [dictGet?, if_neg hk₁]
        exact ih' ⟨fun h => hnodup.1 (Or.inr h), hnodup.2.2⟩
    · simp [dictPop, dictGet?, h₀, ih hnodup.2]

theorem dictGet?_dictPop_ne {α : Type} (d : List (String × α)) (k k' : String)
    (h : k' ≠ k) : dictGet? (dictPop d k') k = dictGet? d k := by
  induction d with
  | nil => simp [dictPop]
  | cons kv rest ih =>
    obtain ⟨k₀, v₀⟩ := kv
    by_cases h₀ : k₀ = k'
    · subst h₀
      simp [dictPop, dictGet?, h, Ne.symm h]
    · simp [dictPop, dictGet?, h₀, ih]

theorem dictGet?_dictPop_none {α : Type} (d : List (String × α)) (k k' : String)
    (h : dictGet? d k = none) : dictGet? (dictPop d k') k = none := by
  induction d with
  | nil => simpa [dictPop] using h
  | cons kv rest ih =>
    obtain ⟨k₀, v₀⟩ := kv
    by_cases h₀ : k₀ = k
    · simp [dictGet?, h₀] at h
    · simp only [dictGet?, if_neg h₀] at h
      by_cases h₁ : k₀ = k' <;>
        simp [dictPop, dictGet?, h₀, h₁, ih h, h]

theorem dictPop_of_absent {α : Type} (d : List (String × α)) (k : String)
    (h : dictGet? d k = none) : dictPop d k = d := by
  induction d with
  | nil => simp [dictPop]
  | cons kv rest ih =>
    obtain ⟨k₀, v₀⟩ := kv
    by_cases h₀ : k₀ = k
    · simp [dictGet?, h₀] at h
    · simp_all [dictPop, dictGet?, h₀]

theorem dictPop_keys_nodup {α : Type} (d : List (String × α)) (k : String)
    (hnodup : (d.map Prod.fst).Nodup) : ((dictPop d k).map Prod.fst).Nodup := by
  induction d with
  | nil => simpa [dictPop] using hnodup
  | cons kv rest ih =>
    obtain ⟨k₀, v₀⟩ := kv
    simp only [List.map_cons, List.nodup_cons] at hnodup
    by_cases h₀ : k₀ = k
    · simpa [dictPop, h₀] using hnodup.2
    · simp only [dictPop, if_neg h₀, List.map_cons]
      refine List.nodup_cons.mpr ⟨?_, ih hnodup.2⟩
      intro hmem
      -- a key of the popped tail is a key of the tail
      have hsub : k₀ ∈ rest.map Prod.fst := by
        clear ih hnodup
        induction rest with
        | nil => simpa [dictPop] using hmem
        | cons kv' rest' ih' =>
          obtain ⟨k₁, v₁⟩ := kv'
          by_cases h₁ : k₁ = k
          · simp only [dictPop, if_pos h₁] at hmem
            simp [hmem]
          · simp only [dictPop, if_neg h₁, List.map_cons, List.mem_cons] at hmem
            rcases hmem with h | h
            · simp [h]
            · simp [ih' h]
      exact hnodup.1 hsub

theorem mem_keys_dictSet {α : Type} (d : List (String × α)) (k k' : String) (v : α)
    (h : k' ∈ (dictSet d k v).map Prod.fst) : k' = k ∨ k' ∈ d.map Prod.fst := by
  induction d with
  | nil => simpa [dictSet] using h
  | cons kv rest ih =>
    obtain ⟨k₀, v₀⟩ := kv
    by_cases h₀ : k₀ = k
    · simp only [dictSet, if_pos h₀, List.map_cons, List.mem_cons] at h
      rcases h with h | h
      · exact Or.inl h
      · exact Or.inr (by simp [h])
    · simp only [dictSet, if_neg h₀, List.map_cons, List.mem_cons] at h
      rcases h with h | h
      · exact Or.inr (by simp [h])
      · rcases ih h with h | h
        · exact Or.inl h
        · exact Or.inr (by simp [h])

/-! ## Lemmas about the drain loop -/

theorem drainOne_queue (execFn : ExecFn) (cmd : BlenderCommand) (st : BridgeState) :
    (drainOne execFn cmd st).queue = st.queue := rfl

/-- The drain loop pops exactly `min fuel (queue length)` commands: one
per iteration until the fuel or the queue is exhausted, irrespective of
handler failures. -/
theorem drainLoop_queue (execFn : ExecFn) (fuel : Nat) (st : BridgeState) :
    (drainLoop execFn fuel st).queue = st.queue.drop fuel := by
  induction fuel generalizing st with
  | zero => simp [drainLoop]
  | succ fuel ih =>
    match hq : st.queue with
    | [] => simp [drainLoop, hq]
    | cmd :: rest =>
      have : (drainOne execFn cmd { st with queue := rest }).queue = rest := rfl
      simp [drainLoop, hq, ih, this]

theorem drainLoop_cons (execFn : ExecFn) (fuel : Nat) (st : BridgeState)
    (cmd : BlenderCommand) (rest : List BlenderCommand) (hq : st.queue = cmd :: rest) :
    drainLoop execFn (fuel + 1) st
      = drainLoop execFn fuel (drainOne execFn cmd { st with queue := rest }) := by
  rw [drainLoop, hq]

/-- Commands whose id is not processed in the remaining iterations
leave that id's future object and its absence from the table intact. -/
theorem drainLoop_preserve (execFn : ExecFn) (fuel : Nat) (st : BridgeState) (k : String)
    (h : ∀ c ∈ st.queue.take fuel, c.command_id ≠ k) :
    (drainLoop execFn fuel st).store k = st.store k ∧
      (dictGet? st.futures k = none → dictGet? (drainLoop execFn fuel st).futures k = none) := by
  induction fuel generalizing st with
  | zero => simp [drainLoop]
  | succ fuel ih =>
    match hq : st.queue with
    | [] => simp [drainLoop, hq]
    | cmd :: rest =>
      have hne : cmd.command_id ≠ k := by
        refine h cmd ?_
        simp [hq]
      have hrest : ∀ c ∈ rest.take fuel, c.command_id ≠ k := by
        intro c hc
        refine h c ?_
        rw [hq]
        simp only [List.take_succ_cons, List.mem_cons]
        exact Or.inr hc
      have hstep := ih (drainOne execFn cmd { st with queue := rest }) hrest
      rw [drainLoop, hq]
      constructor
      · rw [hstep.1]
        show (let response := drainResponse execFn cmd
              let store' :=
                match dictGet? st.futures cmd.command_id with
                | some _ =>
                  if (st.store cmd.command_id).done then st.store
                  else setStore st.store cmd.command_id (.resolved response)
                | none => st.store
              store') k = st.store k
        cases hl : dictGet? st.futures cmd.command_id with
        | none => simp
        | some u =>
          by_cases hd : (st.store cmd.command_id).done <;>
            simp [hd, setStore, Ne.symm hne]
      · intro habs
        refine hstep.2 ?_
        show dictGet? (dictPop st.futures cmd.command_id) k = none
        exact dictGet?_dictPop_none _ _ _ habs

/-- Heart of the drain-loop guarantees: a queued command within the
fuel bound whose future is registered and pending gets its future
resolved with the drain response, and its table entry is removed.
Command ids are assumed pairwise distinct within the processed batch
and unique in the table, as `uuid4` ids are. -/
theorem drainLoop_resolves (execFn : ExecFn) (fuel : Nat) (st : BridgeState)
    (cmd : BlenderCommand)
    (hmem : cmd ∈ st.queue.take fuel)
    (hnodup : ((st.queue.take fuel).map (fun c => c.command_id)).Nodup)
    (hfnodup : (st.futures.map Prod.fst).Nodup)
    (hreg : dictGet? st.futures cmd.command_id = some ())
    (hpend : st.store cmd.command_id = .pending) :
    (drainLoop execFn fuel st).store cmd.command_id
        = .resolved (drainResponse execFn cmd) ∧
      dictGet? (drainLoop execFn fuel st).futures cmd.command_id = none := by
  induction fuel generalizing st with
  | zero => simp at hmem
  | succ fuel ih =>
    match hq : st.queue with
    | [] => rw [hq] at hmem; simp at hmem
    | c :: rest =>
      rw [hq] at hmem hnodup
      simp only [List.take_succ_cons, List.map_cons, List.nodup_cons, List.mem_cons] at hmem hnodup
      set st' := drainOne execFn c { st with queue := rest } with hst'
      have hq' : st'.queue = rest := rfl
      rcases hmem with hceq | hmem
      · -- the command at the head of the queue is processed now
        subst hceq
        have hstore' : st'.store cmd.command_id = .resolved (drainResponse execFn cmd) := by
          show (let response := drainResponse execFn cmd
                let store' :=
                  match dictGet? st.futures cmd.command_id with
                  | some _ =>
                    if (st.store cmd.command_id).done then st.store
                    else setStore st.store cmd.command_id (.resolved response)
                  | none => st.store
                store') cmd.command_id = .resolved (drainResponse execFn cmd)
          rw [hreg]
          simp [hpend, FutureState.done, setStore]
        have hfut' : dictGet? st'.futures cmd.command_id = none := by
          show dictGet? (dictPop st.futures cmd.command_id) cmd.command_id = none
          exact dictGet?_dictPop_self _ _ hfnodup
        have hrest : ∀ c' ∈ st'.queue.take fuel, c'.command_id ≠ cmd.command_id := by
          intro c' hc'
          rw [hq'] at hc'
          intro heq
          exact hnodup.1 (heq ▸ List.mem_map_of_mem (fun x => x.command_id) hc')
        have hpres := drainLoop_preserve execFn fuel st' cmd.command_id hrest
        rw [drainLoop_cons execFn fuel st cmd rest hq, ← hst']
        exact ⟨by rw [hpres.1, hstore'], hpres.2 hfut'⟩
      · -- the command sits deeper in the batch; the head step leaves it alone
        have hne : cmd.command_id ≠ c.command_id := by
          intro heq
          exact hnodup.1 (heq ▸ List.mem_map_of_mem (fun x => x.command_id) hmem)
        have hstore' : st'.store cmd.command_id = st.store cmd.command_id := by
          show (let response := drainResponse execFn c
                let store' :=
                  match dictGet? st.futures c.command_id with
                  | some _ =>
                    if (st.store c.command_id).done then st.store
                    else setStore st.store c.command_id (.resolved response)
                  | none => st.store
                store') cmd.command_id = st.store cmd.command_id
          cases hl : dictGet? st.futures c.command_id with
          | none => simp
          | some u =>
            by_cases hd : (st.store c.command_id).done <;> simp [hd, setStore, hne]
        have hfut' : dictGet? st'.futures cmd.command_id = some () := by
          show dictGet? (dictPop st.futures c.command_id) cmd.command_id = some ()
          rw [dictGet?_dictPop_ne _ _ _ (Ne.symm hne)]
          exact hreg
        have hfnodup' : (st'.futures.map Prod.fst).Nodup :=
          dictPop_keys_nodup _ _ hfnodup
        have := ih st' (by rw [hq']; exact hmem) (by rw [hq']; exact hnodup.2) hfnodup'
          hfut' (hstore' ▸ hpend)
        rw [drainLoop_cons execFn fuel st c rest hq, ← hst']
        exact this

/-! ## Lemmas about the error counter -/

/-- A key of the form `CATEGORY_operation` starts with a category value
exactly when that category built it: no category value is a prefix of
another category's keys. -/
theorem pyStartswith_errorKey (c c' : ErrorCategory) (op : String) :
    pyStartswith (errorKey c op) c'.value = decide (c' = c) := by
  cases c <;> cases c' <;>
    simp [pyStartswith, errorKey, ErrorCategory.value, String.data_append, startswithChars]

theorem keysWF_handle_error (counts : ErrorCounts) (cat : ErrorCategory) (op : String)
    (h : KeysWF counts) : KeysWF (handle_error counts cat op) := by
  intro kv hkv
  have hmem := mem_keys_dictSet counts (errorKey cat op) kv.1
    (dictGetD counts (errorKey cat op) 0 + 1) (List.mem_map_of_mem Prod.fst hkv)
  rcases hmem with heq | hmem
  · exact ⟨cat, op, heq⟩
  · obtain ⟨kv', hkv', hfst⟩ := List.mem_map.mp hmem
    obtain ⟨c, o, hc⟩ := h kv' hkv'
    exact ⟨c, o, hfst ▸ hc⟩

theorem category_sum_cons (cats : List ErrorCategory) (k : String) (v : Nat)
    (rest : ErrorCounts) :
    (cats.map (get_error_stats_category ((k, v) :: rest))).sum
      = (cats.map (fun c => if pyStartswith k c.value then v else 0)).sum
        + (cats.map (get_error_stats_category rest)).sum := by
  induction cats with
  | nil => simp
  | cons c cats ih =>
    have hg : get_error_stats_category ((k, v) :: rest) c
        = (if pyStartswith k c.value then v else 0) + get_error_stats_category rest c := by
      simp [get_error_stats_category]
    simp only [List.map_cons, List.sum_cons, hg, ih]
    omega

/-- Each key is attributed to exactly one category, so the batch of
`if`-terms over all seven categories sums to the key's count. -/
theorem errorKey_match_sum (c₀ : ErrorCategory) (op : String) (v : Nat) :
    (ErrorCategory.all.map
      (fun c => if pyStartswith (errorKey c₀ op) c.value then v else 0)).sum = v := by
  cases c₀ <;> simp [ErrorCategory.all, pyStartswith_errorKey]

/-- On a well-formed table the aggregate total is the sum of the seven
per-category totals. -/
theorem total_eq_categories (counts : ErrorCounts) (h : KeysWF counts) :
    get_error_stats_total counts
      = (ErrorCategory.all.map (get_error_stats_category counts)).sum := by
  induction counts with
  | nil => simp [get_error_stats_total, get_error_stats_category, ErrorCategory.all]
  | cons kv rest ih =>
    obtain ⟨k, v⟩ := kv
    obtain ⟨c₀, op, hk⟩ := h (k, v) (List.mem_cons_self _ _)
    have hrest : KeysWF rest := fun kv' hkv' => h kv' (List.mem_cons_of_mem _ hkv')
    have htot : get_error_stats_total ((k, v) :: rest) = v + get_error_stats_total rest := by
      simp [get_error_stats_total]
    have hk' : k = errorKey c₀ op := hk
    rw [htot, category_sum_cons, ← ih hrest, hk', errorKey_match_sum]

theorem keysWF_foldl (calls : List (ErrorCategory × String)) (counts : ErrorCounts)
    (h : KeysWF counts) :
    KeysWF (calls.foldl (fun counts p => handle_error counts p.1 p.2) counts) := by
  induction calls generalizing counts with
  | nil => exact h
  | cons p rest ih =>
    exact ih (handle_error counts p.1 p.2) (keysWF_handle_error counts p.1 p.2 h)

theorem keysWF_of_calls (calls : List (ErrorCategory × String)) :
    KeysWF (error_counts_of_calls calls) :=
  keysWF_foldl calls [] (fun kv hkv => absurd hkv (List.not_mem_nil kv))

/-! ## Lemmas about cleanup and the heartbeat sweep -/

theorem dictGet?_mem {α : Type} (d : List (String × α)) (k : String) (v : α)
    (h : dictGet? d k = some v) : (k, v) ∈ d := by
  induction d with
  | nil => simp [dictGet?] at h
  | cons kv rest ih =>
    obtain ⟨k₀, v₀⟩ := kv
    by_cases h₀ : k₀ = k
    · subst h₀
      have h' : some v₀ = some v := by simpa [dictGet?] using h
      injection h' with h'
      simp [h']
    · simp only [dictGet?, if_neg h₀] at h
      exact List.mem_cons_of_mem _ (ih h)

theorem dictGet?_of_mem_nodup {α : Type} (d : List (String × α)) (k : String) (v : α)
    (hnodup : (d.map Prod.fst).Nodup) (h : (k, v) ∈ d) : dictGet? d k = some v := by
  induction d with
  | nil => simp at h
  | cons kv rest ih =>
    obtain ⟨k₀, v₀⟩ := kv
    simp only [List.map_cons, List.nodup_cons] at hnodup
    rcases List.mem_cons.mp h with heq | hmem
    · obtain ⟨hk, hv⟩ := Prod.mk.injEq .. ▸ heq
      simp [dictGet?, hk.symm, hv]
    · have hne : k₀ ≠ k := by
        intro heq
        exact hnodup.1 (heq ▸ List.mem_map_of_mem Prod.fst hmem)
      simp only [dictGet?, if_neg hne]
      exact ih hnodup.2 hmem

theorem cleanup_client_eq (st : ServerClients) (client_id reason : String) :
    cleanup_client st client_id reason
      = { clients := dictPop st.clients client_id,
          client_info := dictPop st.client_info client_id } := by
  by_cases h : (dictGet? st.clients client_id).isSome <;>
    simp [cleanup_client, cleanup_client_steps, h, applyCleanupStep]

theorem sweepCleanupGo_preserve (ids : List String) (st : ServerClients) (k : String)
    (h : k ∉ ids) :
    dictGet? (sweepCleanupGo ids st).clients k = dictGet? st.clients k ∧
      dictGet? (sweepCleanupGo ids st).client_info k = dictGet? st.client_info k := by
  induction ids generalizing st with
  | nil => exact ⟨rfl, rfl⟩
  | cons id rest ih =>
    have hne : k ≠ id := fun heq => h (heq ▸ List.mem_cons_self _ _)
    have hrest : k ∉ rest := fun hmem => h (List.mem_cons_of_mem _ hmem)
    have := ih (cleanup_client st id "Connection timeout") hrest
    rw [sweepCleanupGo] at *
    rw [this.1, this.2, cleanup_client_eq]
    exact ⟨dictGet?_dictPop_ne _ _ _ (Ne.symm hne), dictGet?_dictPop_ne _ _ _ (Ne.symm hne)⟩

theorem sweepCleanupGo_none (ids : List String) (st : ServerClients) (k : String)
    (h₁ : dictGet? st.clients k = none) (h₂ : dictGet? st.client_info k = none) :
    dictGet? (sweepCleanupGo ids st).clients k = none ∧
      dictGet? (sweepCleanupGo ids st).client_info k = none := by
  induction ids generalizing st with
  | nil => exact ⟨h₁, h₂⟩
  | cons id rest ih =>
    rw [sweepCleanupGo]
    exact ih _ (by rw [cleanup_client_eq]; exact dictGet?_dictPop_none _ _ _ h₁)
      (by rw [cleanup_client_eq]; exact dictGet?_dictPop_none _ _ _ h₂)

theorem sweepCleanupGo_removes (ids : List String) (st : ServerClients) (k : String)
    (hmem : k ∈ ids)
    (hnc : (st.clients.map Prod.fst).Nodup)
    (hni : (st.client_info.map Prod.fst).Nodup) :
    dictGet? (sweepCleanupGo ids st).clients k = none ∧
      dictGet? (sweepCleanupGo ids st).client_info k = none := by
  induction ids generalizing st with
  | nil => simp at hmem
  | cons id rest ih =>
    rw [sweepCleanupGo]
    by_cases heq : k = id
    · subst heq
      refine sweepCleanupGo_none rest _ k ?_ ?_ <;> rw [cleanup_client_eq]
      · exact dictGet?_dictPop_self _ _ hnc
      · exact dictGet?_dictPop_self _ _ hni
    · have hrest : k ∈ rest := by
        rcases List.mem_cons.mp hmem with h | h
        · exact absurd h heq
        · exact h
      refine ih _ hrest ?_ ?_ <;> rw [cleanup_client_eq]
      · exact dictPop_keys_nodup _ _ hnc
      · exact dictPop_keys_nodup _ _ hni

/-- Every close handshake issued by the sweep carries close code 1001
and reason `"Connection timeout"`. -/
theorem sweepEventsGo_close_params (ids : List String) (st : ServerClients)
    (cid : String) (code : Nat) (reason : String)
    (h : CleanupStep.close_websocket cid code reason ∈ sweepEventsGo ids st) :
    code = 1001 ∧ reason = "Connection timeout" := by
  induction ids generalizing st with
  | nil => simp [sweepEventsGo] at h
  | cons id rest ih =>
    rw [sweepEventsGo] at h
    rcases List.mem_append.mp h with h | h
    · by_cases hs : (dictGet? st.clients id).isSome <;>
        simp [cleanup_client_steps, hs] at h
      exact ⟨h.2.1, h.2.2⟩
    · exact ih _ h

/-- The sweep pops the tracking entries of every stale client. -/
theorem sweepEventsGo_pop_mem (ids : List String) (st : ServerClients) (cid : String)
    (h : cid ∈ ids) :
    CleanupStep.pop_clients cid ∈ sweepEventsGo ids st := by
  induction ids generalizing st with
  | nil => simp at h
  | cons id rest ih =>
    rw [sweepEventsGo]
    rcases List.mem_cons.mp h with heq | hmem
    · subst heq
      refine List.mem_append.mpr (Or.inl ?_)
      by_cases hs : (dictGet? st.clients cid).isSome <;> simp [cleanup_client_steps, hs]
    · exact List.mem_append.mpr (Or.inr (ih _ hmem))

/-- A stale client whose websocket is tracked when the sweep starts
gets an actual close handshake with code 1001 and reason
`"Connection timeout"`. -/
theorem sweepEventsGo_close_mem (ids : List String) (st : ServerClients) (cid : String)
    (h : cid ∈ ids) (hsock : (dictGet? st.clients cid).isSome = true) :
    CleanupStep.close_websocket cid 1001 "Connection timeout" ∈ sweepEventsGo ids st := by
  induction ids generalizing st with
  | nil => simp at h
  | cons id rest ih =>
    rw [sweepEventsGo]
    by_cases heq : cid = id
    · subst heq
      refine List.mem_append.mpr (Or.inl ?_)
      simp [cleanup_client_steps, hsock]
    · have hmem : cid ∈ rest := by
        rcases List.mem_cons.mp h with h' | h'
        · exact absurd h' heq
        · exact h'
      refine List.mem_append.mpr (Or.inr (ih _ hmem ?_))
      rw [cleanup_client_eq]
      show (dictGet? (dictPop st.clients id) cid).isSome = true
      rw [dictGet?_dictPop_ne _ _ _ (Ne.symm heq)]
      exact hsock

/-- Membership in the collected stale list characterized through the
tracked entry, for tables with unique keys. -/
theorem mem_stale_iff (current_time : ℚ) (st : ServerClients) (cid : String)
    (info : ClientInfo)
    (hnodup : (st.client_info.map Prod.fst).Nodup)
    (hlook : dictGet? st.client_info cid = some info) :
    cid ∈ heartbeat_stale_clients current_time st
      ↔ heartbeat_classify current_time info = .stale := by
  constructor
  · intro h
    obtain ⟨kv, hkv, hfst⟩ := List.mem_map.mp h
    obtain ⟨hmem, hp⟩ := List.mem_filter.mp hkv
    have hlook' : dictGet? st.client_info kv.1 = some kv.2 :=
      dictGet?_of_mem_nodup _ _ _ hnodup hmem
    rw [hfst, hlook] at hlook'
    have : info = kv.2 := by injection hlook'
    rw [this]
    exact of_decide_eq_true hp
  · intro h
    have hmem : (cid, info) ∈ st.client_info := dictGet?_mem _ _ _ hlook
    refine List.mem_map.mpr ⟨(cid, info), List.mem_filter.mpr ⟨hmem, ?_⟩, rfl⟩
    exact decide_eq_true h

/-- Membership in the collected warning list characterized through the
tracked entry, for tables with unique keys. -/
theorem mem_warning_iff (current_time : ℚ) (st : ServerClients) (cid : String)
    (info : ClientInfo)
    (hnodup : (st.client_info.map Prod.fst).Nodup)
    (hlook : dictGet? st.client_info cid = some info) :
    cid ∈ heartbeat_warning_clients current_time st
      ↔ heartbeat_classify current_time info = .warned := by
  constructor
  · intro h
    obtain ⟨kv, hkv, hfst⟩ := List.mem_map.mp h
    obtain ⟨hmem, hp⟩ := List.mem_filter.mp hkv
    have hlook' : dictGet? st.client_info kv.1 = some kv.2 :=
      dictGet?_of_mem_nodup _ _ _ hnodup hmem
    rw [hfst, hlook] at hlook'
    have : info = kv.2 := by injection hlook'
    rw [this]
    exact of_decide_eq_true hp
  · intro h
    have hmem : (cid, info) ∈ st.client_info := dictGet?_mem _ _ _ hlook
    refine List.mem_map.mpr ⟨(cid, info), List.mem_filter.mpr ⟨hmem, ?_⟩, rfl⟩
    exact decide_eq_true h

/-! ## Claim theorems -/

/-- C1: a drain tick pops at most 10 queued commands (exactly
`min 10 (queue length)`, so a failing handler never blocks the rest of
the tick or later ticks), and a command whose handler raises gets its
pending future resolved with a failure `EXECUTION_ERROR` response and
its table entry removed rather than being left pending. -/
theorem drain_tick_bounded_and_fault_isolated
    (execFn : ExecFn) (st : BridgeState) (cmd : BlenderCommand) (e : String)
    (hmem : cmd ∈ st.queue.take 10)
    (hnodup : ((st.queue.take 10).map (fun c => c.command_id)).Nodup)
    (hfnodup : (st.futures.map Prod.fst).Nodup)
    (hreg : dictGet? st.futures cmd.command_id = some ())
    (hpend : st.store cmd.command_id = .pending)
    (herr : execFn cmd = .error e) :
    (execute_blender_commands execFn st).queue = st.queue.drop 10 ∧
      (execute_blender_commands execFn (execute_blender_commands execFn st)).queue
        = st.queue.drop 20 ∧
      (execute_blender_commands execFn st).store cmd.command_id
        = .resolved { success := false, error := some ("EXECUTION_ERROR: " ++ e) } ∧
      ({ success := false, error := some ("EXECUTION_ERROR: " ++ e) }
          : ResponseMessage).success = false ∧
      dictGet? (execute_blender_commands execFn st).futures cmd.command_id = none := by
  have hd := drainLoop_resolves execFn 10 st cmd hmem hnodup hfnodup hreg hpend
  have hresp : drainResponse execFn cmd
      = { success := false, error := some ("EXECUTION_ERROR: " ++ e) } := by
    simp [drainResponse, herr]
  refine ⟨drainLoop_queue execFn 10 st, ?_, ?_, rfl, hd.2⟩
  · show (drainLoop execFn 10 (drainLoop execFn 10 st)).queue = st.queue.drop 20
    rw [drainLoop_queue, drainLoop_queue, List.drop_drop]
  · show (drainLoop execFn 10 st).store cmd.command_id = _
    rw [hd.1, hresp]

/-- Witness for C1 on a concrete two-command queue whose first handler
raises. -/
theorem drain_tick_bounded_and_fault_isolated_witness :
    wCmdA ∈ wBridgeSt.queue.take 10 ∧
      (execute_blender_commands wExecFn wBridgeSt).store "a"
        = .resolved { success := false, error := some ("EXECUTION_ERROR: " ++ "boom") } ∧
      dictGet? (execute_blender_commands wExecFn wBridgeSt).futures "a" = none := by
  have h := drain_tick_bounded_and_fault_isolated wExecFn wBridgeSt wCmdA "boom"
    (by simp [wBridgeSt]) (by simp [wBridgeSt, wCmdA, wCmdB])
    (by simp [wBridgeSt]) rfl rfl rfl
  exact ⟨by simp [wBridgeSt], h.2.2.1, h.2.2.2.2⟩

/-- C2: when the 30-second wait for a host-bound command's future times
out, the waiter itself removes the command's entry from the shared
futures table and returns a failure response carrying the `TIMEOUT`
error; afterwards no entry for the command id remains. -/
theorem timeout_waiter_pops_entry (futures : List (String × Unit)) (command_id : String)
    (hnodup : (futures.map Prod.fst).Nodup) :
    (execute_command_await .timeout futures command_id).1.success = false ∧
      (execute_command_await .timeout futures command_id).1.error
        = some "TIMEOUT: Command execution timed out" ∧
      dictGet? (execute_command_await .timeout futures command_id).2 command_id = none := by
  refine ⟨rfl, rfl, ?_⟩
  show dictGet? (dictPop futures command_id) command_id = none
  exact dictGet?_dictPop_self _ _ hnodup

/-- Witness for C2 on a concrete one-entry table. -/
theorem timeout_waiter_pops_entry_witness :
    (execute_command_await .timeout [("u", ())] "u").1.success = false ∧
      dictGet? (execute_command_await .timeout [("u", ())] "u").2 "u" = none := by
  have h := timeout_waiter_pops_entry [("u", ())] "u" (by decide)
  exact ⟨h.1, h.2.2⟩

/-- C3 counterexample: the claim says `ping` and `get_error_stats` are
executed locally and never enqueued, but `execute_command` answers only
`get_server_status` directly; `ping` (like `get_error_stats`, were it
ever validated) takes the host-queued path, registering a future and
appending to the FIFO queue. -/
theorem ping_not_local_counterexample :
    execute_command_route "ping" = .host_queued ∧
      execute_command_route "get_error_stats" = .host_queued ∧
      execute_command_bridge_actions { command := "ping", params := [], client_id := none } "u1"
        = [.register_future "u1",
           .queue_put { command_id := "u1", command := "ping", params := [], client_id := none }] ∧
      execute_command_route "ping" ≠ .local_direct := by
  exact ⟨rfl, rfl, rfl, by decide⟩

/-- C3 amended: exactly the command `get_server_status` is executed
directly on the network-I/O context; every other command reaching
`execute_command` is enqueued through the execution bridge, first
registering its pending future and then appending the queued command. -/
theorem only_get_server_status_is_local :
    ∀ (command : String),
      (execute_command_route command = .local_direct ↔ command = "get_server_status")
        ∧ ∀ (msg : CommandMessage) (command_id : String),
            execute_command_bridge_actions msg command_id
              = if msg.command = "get_server_status" then []
                else [.register_future command_id,
                      .queue_put (mkBlenderCommand msg command_id)] := by
  intro command
  constructor
  · constructor
    · intro h
      by_contra hne
      simp [execute_command_route, hne] at h
    · intro h
      simp [execute_command_route, h]
  · intro msg command_id
    by_cases h : msg.command = "get_server_status" <;>
      simp [execute_command_bridge_actions, execute_command_route, h]

/-- C5: the spec's registered command set includes `get_error_stats` and
`disconnect_client`, and the router registers handlers for both, but
`validate_command` rejects them, so the server answers `UNKNOWN_COMMAND`
before they can ever reach their handlers; the other twelve registered
names are all accepted. -/
theorem registered_commands_rejected_by_validator :
    validate_command "get_error_stats" = false ∧
      validate_command "disconnect_client" = false ∧
      "get_error_stats" ∈ default_handler_commands ∧
      "disconnect_client" ∈ default_handler_commands ∧
      process_message (Json.obj [("command", Json.str "get_error_stats")])
        = .reply (create_error_response "UNKNOWN_COMMAND"
            "Command 'get_error_stats' is not recognized" (some unknown_command_detail) .SYSTEM) ∧
      process_message (Json.obj [("command", Json.str "disconnect_client")])
        = .reply (create_error_response "UNKNOWN_COMMAND"
            "Command 'disconnect_client' is not recognized" (some unknown_command_detail) .SYSTEM) ∧
      ∀ c ∈ valid_commands, validate_command c = true := by
  exact ⟨rfl, rfl, by decide, by decide, rfl, rfl, by decide⟩

/-- C4 counterexample: for a tracked client, `_cleanup_client` awaits
the close handshake as its first step and only then pops the two
tracking tables, so the claimed remove-before-close ordering fails. -/
theorem cleanup_close_first_counterexample :
    cleanup_client_steps "client" "Cleanup" true
      = [.close_websocket "client" 1001 "Cleanup",
         .pop_clients "client", .pop_client_info "client"] ∧
      ¬ removal_precedes_close (cleanup_client_steps "client" "Cleanup" true) := by
  refine ⟨rfl, ?_⟩
  intro h
  have h01 := h 0 1 (.close_websocket "client" 1001 "Cleanup") (.pop_clients "client")
    rfl rfl rfl rfl
  exact absurd h01 (by decide)

/-- C4 amended: `_cleanup_client` awaits the best-effort close first and
removes the connection from both tracking tables afterwards; a failure
of the close attempt is swallowed and never propagates, and after the
call no tracking entry for the client remains. -/
theorem cleanup_removes_after_close_never_throws
    (closeRes : Except String Unit) (st : ServerClients) (client_id reason : String) :
    cleanup_client_run closeRes st client_id reason
        = .ok (cleanup_client st client_id reason) ∧
      close_precedes_removal (cleanup_client_steps client_id reason true) ∧
      ((st.clients.map Prod.fst).Nodup →
        dictGet? (cleanup_client st client_id reason).clients client_id = none) ∧
      ((st.client_info.map Prod.fst).Nodup →
        dictGet? (cleanup_client st client_id reason).client_info client_id = none) := by
  refine ⟨?_, ?_, ?_, ?_⟩
  · cases closeRes <;> rfl
  · intro i j s t hsi hcs htj hpt
    match i, hsi with
    | 0, _ =>
      match j, htj with
      | 0, htj =>
        have : t = CleanupStep.close_websocket client_id 1001 reason := by
          injection htj with h
          exact h.symm
        rw [this] at hpt
        simp [stepIsPop] at hpt
      | j + 1, _ => exact Nat.succ_pos j
    | 1, hsi =>
      have : s = CleanupStep.pop_clients client_id := by
        injection hsi with h
        exact h.symm
      rw [this] at hcs
      simp [stepIsClose] at hcs
    | 2, hsi =>
      have : s = CleanupStep.pop_client_info client_id := by
        injection hsi with h
        exact h.symm
      rw [this] at hcs
      simp [stepIsClose] at hcs
    | i + 3, hsi => simp [cleanup_client_steps, List.get?] at hsi
  · intro hnodup
    rw [cleanup_client_eq]
    exact dictGet?_dictPop_self _ _ hnodup
  · intro hnodup
    rw [cleanup_client_eq]
    exact dictGet?_dictPop_self _ _ hnodup

/-- Witness for C4 on a concrete client table and a failing close. -/
theorem cleanup_removes_after_close_never_throws_witness :
    cleanup_client_run (.error "socket error") wServerSt "c" "Cleanup"
        = .ok (cleanup_client wServerSt "c" "Cleanup") ∧
      dictGet? (cleanup_client wServerSt "c" "Cleanup").clients "c" = none ∧
      dictGet? (cleanup_client wServerSt "c" "Cleanup").client_info "c" = none := by
  have h := cleanup_removes_after_close_never_throws (.error "socket error") wServerSt "c" "Cleanup"
  exact ⟨h.1, h.2.2.1 (by decide), h.2.2.2 (by decide)⟩

/-- C6 counterexample: the `UNKNOWN_COMMAND` detail text is a fixed
ten-name listing that omits `set_render_settings` and
`get_render_settings`, both of which `validate_command` accepts — so the
listing is not complete. -/
theorem unknown_command_detail_omits_render_settings :
    validate_command "set_render_settings" = true ∧
      validate_command "get_render_settings" = true ∧
      "set_render_settings" ∉ unknown_command_detail_commands ∧
      "get_render_settings" ∉ unknown_command_detail_commands ∧
      unknown_command_detail
        = "Available commands: ping, get_scene_info, get_server_status, clear_scene, render_scene, create_object, move_object, rotate_object, scale_object, set_material" ∧
      process_message (Json.obj [("command", Json.str "warp_object")])
        = .reply (create_error_response "UNKNOWN_COMMAND"
            "Command 'warp_object' is not recognized" (some unknown_command_detail) .SYSTEM) := by
  exact ⟨rfl, rfl, by decide, by decide, by decide, rfl⟩

/-- C6 amended: every inbound object message whose command field is a
non-empty string outside the registered set is answered with the
`UNKNOWN_COMMAND` error carrying the fixed detail listing; that listing
names ten registered commands, each of which the validator accepts, but
it omits the two accepted names `set_render_settings` and
`get_render_settings`. -/
theorem unknown_command_reply_lists_ten
    (fields : List (String × Json)) (c : String)
    (h₁ : dictGetD fields "command" (Json.str "") = Json.str c)
    (h₂ : c ≠ "")
    (h₃ : validate_command c = false) :
    process_message (Json.obj fields)
        = .reply (create_error_response "UNKNOWN_COMMAND"
            ("Command '" ++ c ++ "' is not recognized") (some unknown_command_detail) .SYSTEM) ∧
      (∀ name ∈ unknown_command_detail_commands, validate_command name = true) ∧
      (∀ name, validate_command name = true →
        name ∈ unknown_command_detail_commands
          ∨ name = "set_render_settings" ∨ name = "get_render_settings") := by
  refine ⟨?_, by decide, ?_⟩
  · have htruthy : (Json.str c).truthy = true := by
      simp [Json.truthy]
      exact h₂
    simp [process_message, h₁, htruthy, h₃]
  · intro name hv
    have hmem : name ∈ valid_commands := by
      simpa [validate_command, List.contains_iff_exists_mem_beq, beq_iff_eq] using hv
    have hall : ∀ m ∈ valid_commands,
        m ∈ unknown_command_detail_commands
          ∨ m = "set_render_settings" ∨ m = "get_render_settings" := by decide
    exact hall name hmem

/-- Witness for C6 at a concrete unregistered command. -/
theorem unknown_command_reply_lists_ten_witness :
    process_message (Json.obj [("command", Json.str "warp")])
        = .reply (create_error_response "UNKNOWN_COMMAND"
            ("Command '" ++ "warp" ++ "' is not recognized") (some unknown_command_detail) .SYSTEM) ∧
      "set_render_settings" ∉ unknown_command_detail_commands := by
  have h := unknown_command_reply_lists_ten [("command", Json.str "warp")] "warp"
    rfl (by decide) rfl
  exact ⟨h.1, by decide⟩

/-- C7 counterexample: a client stale by 301 seconds is indeed closed
and removed by the sweep, but the close handshake carries the reason
string `"Connection timeout"`, not the claimed `"timeout"`. -/
theorem heartbeat_close_reason_counterexample :
    heartbeat_classify 301 wInfo = .stale ∧
      heartbeat_sweep_events 301 wServerSt
        = [.close_websocket "c" 1001 "Connection timeout",
           .pop_clients "c", .pop_client_info "c"] ∧
      CleanupStep.close_websocket "c" 1001 "timeout" ∉ heartbeat_sweep_events 301 wServerSt ∧
      "Connection timeout" ≠ "timeout" := by
  have hclass : heartbeat_classify 301 wInfo = .stale := by
    norm_num [heartbeat_classify, wInfo]
  refine ⟨hclass, ?_, ?_, by decide⟩
  · simp [heartbeat_sweep_events, heartbeat_stale_clients, wServerSt, hclass,
      sweepEventsGo, cleanup_client_steps, dictGet?, cleanup_client_eq]
  · simp [heartbeat_sweep_events, heartbeat_stale_clients, wServerSt, hclass,
      sweepEventsGo, cleanup_client_steps, dictGet?, cleanup_client_eq]

/-- C7 amended: on a sweep pass, a tracked connection inactive for more
than 300 seconds is cleaned up — its tracking entries are removed, its
tables are popped, and its close handshake (when its websocket is
tracked) carries close code 1001 with reason `"Connection timeout"`;
one inactive for more than 180 but at most 300 seconds is only put on
the warning list and is left open, untouched by that sweep pass; and
every close the sweep issues carries code 1001 and reason
`"Connection timeout"`. -/
theorem heartbeat_warn_then_kill
    (current_time : ℚ) (st : ServerClients) (cid : String) (info : ClientInfo)
    (hnc : (st.clients.map Prod.fst).Nodup)
    (hni : (st.client_info.map Prod.fst).Nodup)
    (hlook : dictGet? st.client_info cid = some info) :
    (current_time - info.last_seen > 300 →
      cid ∈ heartbeat_stale_clients current_time st ∧
        dictGet? (heartbeat_sweep current_time st).clients cid = none ∧
        dictGet? (heartbeat_sweep current_time st).client_info cid = none ∧
        CleanupStep.pop_clients cid ∈ heartbeat_sweep_events current_time st ∧
        ((dictGet? st.clients cid).isSome = true →
          CleanupStep.close_websocket cid 1001 "Connection timeout"
            ∈ heartbeat_sweep_events current_time st)) ∧
      (180 < current_time - info.last_seen → current_time - info.last_seen ≤ 300 →
        cid ∈ heartbeat_warning_clients current_time st ∧
          cid ∉ heartbeat_stale_clients current_time st ∧
          dictGet? (heartbeat_sweep current_time st).clients cid = dictGet? st.clients cid ∧
          dictGet? (heartbeat_sweep current_time st).client_info cid = some info) ∧
      (∀ cid' code reason,
        CleanupStep.close_websocket cid' code reason ∈ heartbeat_sweep_events current_time st →
          code = 1001 ∧ reason = "Connection timeout") := by
  refine ⟨?_, ?_, ?_⟩
  · intro hstale
    have hclass : heartbeat_classify current_time info = .stale := by
      simp [heartbeat_classify, hstale]
    have hmem := (mem_stale_iff current_time st cid info hni hlook).mpr hclass
    have hrem := sweepCleanupGo_removes (heartbeat_stale_clients current_time st) st cid
      hmem hnc hni
    refine ⟨hmem, hrem.1, hrem.2, ?_, ?_⟩
    · exact sweepEventsGo_pop_mem _ _ _ hmem
    · intro hsock
      exact sweepEventsGo_close_mem _ _ _ hmem hsock
  · intro h180 h300
    have hclass : heartbeat_classify current_time info = .warned := by
      simp [heartbeat_classify, h180, not_lt.mpr h300]
    have hwmem := (mem_warning_iff current_time st cid info hni hlook).mpr hclass
    have hnstale : cid ∉ heartbeat_stale_clients current_time st := by
      intro hs
      have := (mem_stale_iff current_time st cid info hni hlook).mp hs
      rw [hclass] at this
      exact absurd this (by decide)
    have hpres := sweepCleanupGo_preserve (heartbeat_stale_clients current_time st) st cid hnstale
    exact ⟨hwmem, hnstale, hpres.1, hpres.2.trans hlook⟩
  · intro cid' code reason h
    exact sweepEventsGo_close_params _ _ _ _ _ h

/-- Witness for C7 at a concrete stale client. -/
theorem heartbeat_warn_then_kill_witness :
    dictGet? (heartbeat_sweep 301 wServerSt).clients "c" = none ∧
      dictGet? (heartbeat_sweep 301 wServerSt).client_info "c" = none ∧
      CleanupStep.pop_clients "c" ∈ heartbeat_sweep_events 301 wServerSt := by
  have h := heartbeat_warn_then_kill 301 wServerSt "c" wInfo (by decide) (by decide) rfl
  have hs := h.1 (by norm_num [wInfo])
  exact ⟨hs.2.1, hs.2.2.1, hs.2.2.2.1⟩

/-- C8: each `handle_error` call increments exactly the counter keyed by
the pair of category and operation, by exactly one, leaving every other
counter unchanged; and on any table reachable by a sequence of such
calls, the aggregate total equals the sum of the seven per-category
totals (each key is attributed to exactly one category). -/
theorem error_counter_increment_and_partition
    (counts : ErrorCounts) (cat : ErrorCategory) (op : String) :
    dictGetD (handle_error counts cat op) (errorKey cat op) 0
        = dictGetD counts (errorKey cat op) 0 + 1 ∧
      (∀ k, k ≠ errorKey cat op →
        dictGetD (handle_error counts cat op) k 0 = dictGetD counts k 0) ∧
      ∀ (calls : List (ErrorCategory × String)),
        get_error_stats_total (error_counts_of_calls calls)
          = (ErrorCategory.all.map (get_error_stats_category (error_counts_of_calls calls))).sum := by
  have hunfold : handle_error counts cat op
      = dictSet counts (errorKey cat op) (dictGetD counts (errorKey cat op) 0 + 1) := rfl
  refine ⟨?_, ?_, ?_⟩
  · rw [hunfold]
    simp [dictGetD, dictGet?_dictSet_self]
  · intro k hk
    rw [hunfold]
    have h := dictGet?_dictSet_ne counts (errorKey cat op) k
      (dictGetD counts (errorKey cat op) 0 + 1) hk
    simp only [dictGetD] at h ⊢
    rw [h]
  · intro calls
    exact total_eq_categories _ (keysWF_of_calls calls)

/-- Witness for C8 at concrete calls. -/
theorem error_counter_increment_and_partition_witness :
    dictGetD (handle_error [] .SYSTEM "boot") (errorKey .SYSTEM "boot") 0 = 1 ∧
      dictGetD (handle_error [] .SYSTEM "boot") "CONNECTION_x" 0 = 0 ∧
      get_error_stats_total (error_counts_of_calls [(.SYSTEM, "boot"), (.COMMAND, "route")])
        = (ErrorCategory.all.map (get_error_stats_category
            (error_counts_of_calls [(.SYSTEM, "boot"), (.COMMAND, "route")]))).sum := by
  have h := error_counter_increment_and_partition [] .SYSTEM "boot"
  refine ⟨?_, ?_, h.2.2 _⟩
  · have h1 := h.1
    simpa [dictGetD, dictGet?] using h1
  · have h2 := h.2.1 "CONNECTION_x" (by decide)
    simpa [dictGetD, dictGet?] using h2

/-- C9: during a host-bound submission the pending future is registered
in the shared table strictly before the command is appended to the FIFO
queue — at every intermediate point, a queued command with the fresh id
already has its future registered — and the drain loop tolerates an
absent table entry (removed by the timed-out waiter) without raising:
it leaves the store and table untouched for that command and still
pops its batch of up to 10 commands. -/
theorem future_registered_before_enqueue
    (st : BridgeState) (msg : CommandMessage) (command_id : String) (n : Nat)
    (hfresh : ∀ c ∈ st.queue, c.command_id ≠ command_id) :
    (∀ c ∈ (runBridgeActions st ((execute_command_bridge_actions msg command_id).take n)).queue,
        c.command_id = command_id →
        dictGet? (runBridgeActions st
            ((execute_command_bridge_actions msg command_id).take n)).futures command_id
          = some ()) ∧
      (∀ (execFn : ExecFn) (cmd : BlenderCommand) (st' : BridgeState),
        dictGet? st'.futures cmd.command_id = none →
          (drainOne execFn cmd st').store = st'.store ∧
            (drainOne execFn cmd st').futures = st'.futures ∧
            (drainOne execFn cmd st').queue = st'.queue) ∧
      (∀ (execFn : ExecFn) (st' : BridgeState),
        (execute_blender_commands execFn st').queue = st'.queue.drop 10) := by
  refine ⟨?_, ?_, ?_⟩
  · cases hroute : execute_command_route msg.command with
    | local_direct =>
      have hacts : execute_command_bridge_actions msg command_id = [] := by
        simp [execute_command_bridge_actions, hroute]
      intro c hc hid
      rw [hacts] at hc
      simp only [List.take_nil, runBridgeActions, List.foldl_nil] at hc
      exact absurd hid (hfresh c hc)
    | host_queued =>
      have hacts : execute_command_bridge_actions msg command_id
          = [.register_future command_id, .queue_put (mkBlenderCommand msg command_id)] := by
        simp [execute_command_bridge_actions, hroute]
      intro c hc hid
      rw [hacts] at hc ⊢
      rcases n with _ | (_ | n)
      · simp only [List.take_zero, runBridgeActions, List.foldl_nil] at hc
        exact absurd hid (hfresh c hc)
      · simp only [List.take_succ_cons, List.take_zero, runBridgeActions,
          List.foldl_cons, List.foldl_nil, applyBridgeAction] at hc
        exact absurd hid (hfresh c hc)
      · simp only [List.take_succ_cons, List.take_nil, runBridgeActions,
          List.foldl_cons, List.foldl_nil, applyBridgeAction]
        exact dictGet?_dictSet_self _ _ _
  · intro execFn cmd st' habs
    refine ⟨?_, ?_, rfl⟩
    · show (let response := drainResponse execFn cmd
            let store' :=
              match dictGet? st'.futures cmd.command_id with
              | some _ =>
                if (st'.store cmd.command_id).done then st'.store
                else setStore st'.store cmd.command_id (.resolved response)
              | none => st'.store
            store') = st'.store
      rw [habs]
    · show dictPop st'.futures cmd.command_id = st'.futures
      exact dictPop_of_absent _ _ habs
  · intro execFn st'
    exact drainLoop_queue execFn 10 st'

/-- Witness for C9: after both submission steps on a concrete state,
the queued command's future is registered. -/
theorem future_registered_before_enqueue_witness :
    dictGet? (runBridgeActions wBridgeSt
        ((execute_command_bridge_actions
          { command := "ping", params := [], client_id := none } "u").take 2)).futures "u"
      = some () := by
  have h := future_registered_before_enqueue wBridgeSt
    { command := "ping", params := [], client_id := none } "u" 2 (by decide)
  refine h.1 (mkBlenderCommand { command := "ping", params := [], client_id := none } "u") ?_ rfl
  simp [runBridgeActions, applyBridgeAction, execute_command_bridge_actions,
    execute_command_route, wBridgeSt]

/-- C10: an inbound object message whose command field is present but
falsy (empty string, null, false, zero, or an empty array or object) is
rejected with `MISSING_COMMAND`, the same code as an absent field,
because the extraction defaults to the empty string and the truthiness
test runs before the type test. -/
theorem falsy_command_yields_missing_command
    (fields : List (String × Json)) (v : Json)
    (hfield : dictGet? fields "command" = some v)
    (hfalsy : v.truthy = false) :
    process_message (Json.obj fields)
      = .reply (create_error_response "MISSING_COMMAND"
          "Command field is required" none .SYSTEM) := by
  have hd : dictGetD fields "command" (Json.str "") = v := by
    simp [dictGetD, hfield]
  simp [process_message, hd, hfalsy]

/-- Witness for C10 at the falsy values the claim names. -/
theorem falsy_command_yields_missing_command_witness :
    process_message (Json.obj [("command", Json.str "")])
        = .reply (create_error_response "MISSING_COMMAND"
            "Command field is required" none .SYSTEM) ∧
      process_message (Json.obj [("command", Json.null)])
        = .reply (create_error_response "MISSING_COMMAND"
            "Command field is required" none .SYSTEM) ∧
      process_message (Json.obj [("command", Json.num 0)])
        = .reply (create_error_response "MISSING_COMMAND"
            "Command field is required" none .SYSTEM) ∧
      process_message (Json.obj [("command", Json.bool false)])
        = .reply (create_error_response "MISSING_COMMAND"
            "Command field is required" none .SYSTEM) ∧
      process_message (Json.obj [("command", Json.arr [])])
        = .reply (create_error_response "MISSING_COMMAND"
            "Command field is required" none .SYSTEM) := by
  exact ⟨falsy_command_yields_missing_command _ _ rfl rfl,
    falsy_command_yields_missing_command _ _ rfl rfl,
    falsy_command_yields_missing_command _ _ rfl rfl,
    falsy_command_yields_missing_command _ _ rfl rfl,
    falsy_command_yields_missing_command _ _ rfl rfl⟩

end BlenderMCP
